import Mathlib

/-
Shallow embedding of the hollg/ray-tracer repository (Rust) in Lean 4.

Modelling conventions:
* Rust f64/f32 scalars are idealized as real numbers; IEEE rounding is not
  modelled.  The one place where the code deliberately relies on non-finite
  IEEE arithmetic (the cube slab method multiplies by f64::INFINITY) is
  modelled by the dedicated extended-value type RVal below.
* Fallible Rust code (Result<_, ()>) is modelled with the Outcome type;
  a call of .unwrap() on an Err value is modelled as Outcome.panicked,
  keeping an explicit Err result and a panic distinguishable.
* The repository stores 2x2, 3x3 and 4x4 matrices in a fixed 4x4 array
  together with a size field; values is modelled as a total function on
  naturals that is zero outside the 4x4 block (Matrix.Wf below).
-/

namespace RT

noncomputable section

open Classical

/-- Modelled from the spec: the repository's consts module (not under src)
defines the comparison tolerance; the spec states epsilon is about 1e-5. -/
def EPSILON : ℝ := 1 / 100000

/-! ## Tuples (src/ray_tracer_lib/src/tuple.rs, shared by the core crate) -/

structure Tuple where
  x : ℝ
  y : ℝ
  z : ℝ
  w : ℝ

def tuple (x y z w : ℝ) : Tuple := ⟨x, y, z, w⟩

def point (x y z : ℝ) : Tuple := tuple x y z 1

def vector (x y z : ℝ) : Tuple := tuple x y z 0

def Tuple.add (a b : Tuple) : Tuple := ⟨a.x + b.x, a.y + b.y, a.z + b.z, a.w + b.w⟩

def Tuple.sub (a b : Tuple) : Tuple := ⟨a.x - b.x, a.y - b.y, a.z - b.z, a.w - b.w⟩

def Tuple.neg (a : Tuple) : Tuple := ⟨-a.x, -a.y, -a.z, -a.w⟩

def Tuple.mul (a : Tuple) (s : ℝ) : Tuple := ⟨a.x * s, a.y * s, a.z * s, a.w * s⟩

def Tuple.dot (a b : Tuple) : ℝ := a.x * b.x + a.y * b.y + a.z * b.z + a.w * b.w

def Tuple.magnitude (a : Tuple) : ℝ :=
  Real.sqrt (a.x * a.x + a.y * a.y + a.z * a.z + a.w * a.w)

def Tuple.normalize (a : Tuple) : Tuple :=
  ⟨a.x / a.magnitude, a.y / a.magnitude, a.z / a.magnitude, a.w / a.magnitude⟩

/-- Modelled from the spec: Tuple::reflect is in the core crate's tuple module,
which is not under src; the spec lists reflect among the vector operations
(reflection of a vector about a normal, the standard v - n * 2 * (v.n)). -/
def Tuple.reflect (v n : Tuple) : Tuple := v.sub (n.mul (2 * v.dot n))

/-- PartialEq for Tuple: componentwise comparison within EPSILON. -/
def tupleEq (a b : Tuple) : Prop :=
  |a.x - b.x| < EPSILON ∧ |a.y - b.y| < EPSILON ∧
  |a.z - b.z| < EPSILON ∧ |a.w - b.w| < EPSILON

/-! ## Colors (src/src/color.rs) -/

structure Color where
  r : ℝ
  g : ℝ
  b : ℝ

def color (r g b : ℝ) : Color := ⟨r, g, b⟩

def BLACK : Color := color 0 0 0

def WHITE : Color := color 1 1 1

def Color.add (a b : Color) : Color := ⟨a.r + b.r, a.g + b.g, a.b + b.b⟩

def Color.sub (a b : Color) : Color := ⟨a.r - b.r, a.g - b.g, a.b - b.b⟩

def Color.mulC (a b : Color) : Color := ⟨a.r * b.r, a.g * b.g, a.b * b.b⟩

def Color.mulS (a : Color) (s : ℝ) : Color := ⟨a.r * s, a.g * s, a.b * s⟩

/-- PartialEq for Color: componentwise comparison within EPSILON. -/
def colorEq (a b : Color) : Prop :=
  |a.r - b.r| < EPSILON ∧ |a.g - b.g| < EPSILON ∧ |a.b - b.b| < EPSILON

/-! ## Matrices (src/ray_tracer_lib/src/matrix.rs) -/

structure Matrix where
  size : ℕ
  values : ℕ → ℕ → ℝ

/-- Well-formedness of the 4x4 backing array: entries outside the size block
are zero (Matrix::build zero-initializes the array and fills the block). -/
def Matrix.Wf (m : Matrix) : Prop :=
  m.size ≤ 4 ∧ ∀ y x : ℕ, ¬(y < m.size ∧ x < m.size) → m.values y x = 0

def Matrix.at (m : Matrix) (y x : ℕ) : ℝ := m.values y x

def Matrix.transpose (m : Matrix) : Matrix :=
  { size := m.size,
    values := fun r c => if r < m.size ∧ c < m.size then m.values c r else 0 }

def Matrix.submatrix (m : Matrix) (row column : ℕ) : Matrix :=
  { size := m.size - 1,
    values := fun y x =>
      if y < m.size - 1 ∧ x < m.size - 1 then
        m.values (if y < row then y else y + 1) (if x < column then x else x + 1)
      else 0 }

/-- Determinant by recursion on the size: the 2x2 base case is ad - bc, any
other size is the signed cofactor expansion along row 0.  The first argument
is the matrix size, so that the recursion is structural. -/
def detAux : ℕ → Matrix → ℝ
  | 0, _ => 0
  | 2, m => m.at 0 0 * m.at 1 1 - m.at 0 1 * m.at 1 0
  | n + 1, m =>
      ∑ c ∈ Finset.range (n + 1),
        m.at 0 c *
          (if (0 + c) % 2 = 0 then detAux n (m.submatrix 0 c)
           else -detAux n (m.submatrix 0 c))

def Matrix.determinant (m : Matrix) : ℝ := detAux m.size m

def Matrix.minor (m : Matrix) (r c : ℕ) : ℝ := (m.submatrix r c).determinant

def Matrix.cofactor (m : Matrix) (r c : ℕ) : ℝ :=
  if (r + c) % 2 = 0 then m.minor r c else -m.minor r c

def Matrix.isInvertible (m : Matrix) : Prop := m.determinant ≠ 0

def Matrix.inverse (m : Matrix) : Option Matrix :=
  if m.determinant = 0 then none
  else some
    { size := m.size,
      values := fun y x =>
        if y < m.size ∧ x < m.size then m.cofactor x y / m.determinant else 0 }

/-- Matrix multiplication: the result array starts as a clone of the left
operand's array and the size block is overwritten with the products. -/
def Matrix.mul (m rhs : Matrix) : Matrix :=
  { size := m.size,
    values := fun y x =>
      if y < m.size ∧ x < m.size then
        ∑ i ∈ Finset.range m.size, m.at y i * rhs.at i x
      else m.values y x }

def Matrix.mulT (m : Matrix) (t : Tuple) : Tuple :=
  let comp : ℕ → ℝ := fun n =>
    if n < m.size then
      m.at n 0 * t.x + m.at n 1 * t.y + m.at n 2 * t.z + m.at n 3 * t.w
    else 0
  ⟨comp 0, comp 1, comp 2, comp 3⟩

/-- PartialEq for Matrix compares all sixteen array cells within a local
epsilon of 0.0001 (a cell pair fails only when the difference exceeds it).
The source's size guard compares a bitwise-negated size and can never
trigger for sizes up to 4, so it is omitted. -/
def matrixEq (a b : Matrix) : Prop :=
  ∀ y ∈ Finset.range 4, ∀ x ∈ Finset.range 4,
    ¬(|a.values y x - b.values y x| > 1 / 10000)

def Matrix.from4 (v : ℕ → ℕ → ℝ) : Matrix :=
  { size := 4, values := fun y x => if y < 4 ∧ x < 4 then v y x else 0 }

def Matrix.from3 (v : ℕ → ℕ → ℝ) : Matrix :=
  { size := 3, values := fun y x => if y < 3 ∧ x < 3 then v y x else 0 }

def Matrix.from2 (v : ℕ → ℕ → ℝ) : Matrix :=
  { size := 2, values := fun y x => if y < 2 ∧ x < 2 then v y x else 0 }

/-- Matrix::identity, the 4x4 identity (transformations.rs identity()). -/
def Matrix.identity : Matrix :=
  Matrix.from4 (fun y x => if y = x then 1 else 0)

/-! ## Rays (src/ray_tracer_lib/src/ray.rs) -/

structure Ray where
  origin : Tuple
  direction : Tuple

def ray (origin direction : Tuple) : Ray := ⟨origin, direction⟩

def Ray.position (r : Ray) (t : ℝ) : Tuple := r.origin.add (r.direction.mul t)

def Ray.transform (r : Ray) (m : Matrix) : Ray :=
  ⟨m.mulT r.origin, m.mulT r.direction⟩

/-! ## Outcome: Result values and panics

An Outcome is ok, an explicit Err result, or a panic (a Rust .unwrap() or
the question-mark operator applied to Err is modelled by unwrapResult). -/

inductive Outcome (α : Type) where
  | ok (a : α)
  | err
  | panicked

def Outcome.bind {α β : Type} : Outcome α → (α → Outcome β) → Outcome β
  | .ok a, f => f a
  | .err, _ => .err
  | .panicked, _ => .panicked

instance : Monad Outcome where
  pure := Outcome.ok
  bind := Outcome.bind

/-- Result::unwrap on a modelled Result: Err becomes a panic. -/
def Outcome.unwrapResult {α : Type} : Outcome α → Outcome α
  | .ok a => .ok a
  | _ => .panicked

/-- Option to Outcome for Matrix::inverse in positions where the caller
applies .unwrap(): none (inversion failure) becomes a panic. -/
def unwrapInverse : Option Matrix → Outcome Matrix
  | some m => .ok m
  | none => .panicked

/-- Option to Outcome for the question-mark operator on Matrix::inverse:
none is propagated as the explicit Err result. -/
def tryInverse : Option Matrix → Outcome Matrix
  | some m => .ok m
  | none => .err

/-! ## Patterns (src/src/pattern.rs) -/

inductive Template where
  | test
  | solid (c : Color)
  | checkers (a b : Color)
  | gradient (a b : Color)
  | rings (a b : Color)
  | stripe (a b : Color)

/-- Template::color_at.  The f64 floor-and-remainder parity tests are
modelled with the integer floor: a remainder by 2.0 of a (possibly
negative) integral f64 is zero exactly when the integer is even. -/
def Template.color_at : Template → Tuple → Color
  | .solid c, _ => c
  | .test, p => Color.mk p.x p.y p.z
  | .checkers a b, p => if (⌊p.x⌋ + ⌊p.y⌋ + ⌊p.z⌋) % 2 = 0 then a else b
  | .stripe a b, p => if ⌊p.x⌋ % 2 = 0 then a else b
  | .gradient a b, p => a.add ((b.sub a).mulS (p.x - ↑⌊p.x⌋))
  | .rings a b, p =>
      if ⌊Real.sqrt (p.x * p.x + p.z * p.z)⌋ % 2 = 0 then a else b

structure Pattern where
  template : Template
  transform : Matrix
  inverse : Matrix

def Pattern.color_at (p : Pattern) (pt : Tuple) : Color := p.template.color_at pt

/-- Modelled from the spec: Pattern::color_at_object is referenced by
Material::lighting but its definition is not under src; per the spec a
pattern is sampled at the object point mapped through the pattern's own
inverse transform (the precomputed inverse field). -/
def Pattern.color_at_object (p : Pattern) (pt : Tuple) : Color :=
  p.color_at (p.inverse.mulT pt)

def solid_pattern (c : Color) : Pattern :=
  ⟨Template.solid c, Matrix.identity, Matrix.identity⟩

/-- PartialEq for Template (derived): same variant with Color's
epsilon-based PartialEq on the components. -/
def templateEq : Template → Template → Prop
  | .test, .test => True
  | .solid a, .solid a2 => colorEq a a2
  | .checkers a b, .checkers a2 b2 => colorEq a a2 ∧ colorEq b b2
  | .gradient a b, .gradient a2 b2 => colorEq a a2 ∧ colorEq b b2
  | .rings a b, .rings a2 b2 => colorEq a a2 ∧ colorEq b b2
  | .stripe a b, .stripe a2 b2 => colorEq a a2 ∧ colorEq b b2
  | _, _ => False

/-- PartialEq for Pattern (derived): fieldwise, with Matrix's PartialEq. -/
def patternEq (p q : Pattern) : Prop :=
  templateEq p.template q.template ∧ matrixEq p.transform q.transform ∧
    matrixEq p.inverse q.inverse

/-! ## Materials (src/src/material.rs) -/

structure Material where
  ambient : ℝ
  diffuse : ℝ
  specular : ℝ
  shininess : ℝ
  reflective : ℝ
  transparency : ℝ
  refractive_index : ℝ
  pattern : Pattern

def Material.default : Material :=
  ⟨1 / 10, 9 / 10, 9 / 10, 200, 0, 0, 1, solid_pattern WHITE⟩

/-- PartialEq for Material: ambient, diffuse, specular and shininess within
EPSILON plus pattern equality; reflective, transparency and
refractive_index are not compared. -/
def materialEq (m o : Material) : Prop :=
  |m.ambient - o.ambient| < EPSILON ∧
  |m.diffuse - o.diffuse| < EPSILON ∧
  |m.specular - o.specular| < EPSILON ∧
  |m.shininess - o.shininess| < EPSILON ∧
  patternEq m.pattern o.pattern

/-! ## Objects (src/src/sphere.rs, plane.rs, cube.rs behind the Object trait)

A trait object is modelled as a record carrying its variant tag; Sphere,
Plane and Cube each own a transform, a material and a Uuid (a natural
number here). -/

inductive ShapeKind where
  | sphere
  | plane
  | cube

structure Object where
  kind : ShapeKind
  transform : Matrix
  material : Material
  id : ℕ

/-- Modelled from the spec: the Object trait's PartialEq (used by the
containment stack in Intersection::prepare) is not under src; the spec
states shapes are compared by their stable unique identifier, not by
structural material equality. -/
def objEq (a b : Object) : Prop := a.id = b.id

/-! ## Intersections (src/src/intersection.rs) -/

structure Intersection where
  t : ℝ
  object : Object

def intersection (t : ℝ) (object : Object) : Intersection := ⟨t, object⟩

/-- PartialEq for Intersection: t within EPSILON and material equality. -/
def intersectionEq (a b : Intersection) : Prop :=
  |a.t - b.t| < EPSILON ∧ materialEq a.object.material b.object.material

/-! ### Hit selection -/

/-- Vec::sort_by with the ascending partial order on t (the source unwraps
partial_cmp, which over the real idealization never fails). -/
def sortByT (xs : List Intersection) : List Intersection :=
  xs.mergeSort (fun a b => decide (a.t ≤ b.t))

/-- Iterator::find with the predicate t >= 0.0 on the sorted list. -/
def findNonNeg : List Intersection → Option Intersection
  | [] => none
  | i :: rest => if 0 ≤ i.t then some i else findNonNeg rest

/-- Hit::hit for a list of intersections: sort ascending by t, then the
first intersection with non-negative t. -/
def hit (xs : List Intersection) : Option Intersection := findNonNeg (sortByT xs)

/-! ### Refractive-index containment walk (Intersection::prepare, loop) -/

def containsObj (obj : Object) : List Object → Prop
  | [] => False
  | c :: rest => objEq c obj ∨ containsObj obj rest

/-- Vec::retain keeping the elements different from obj. -/
def removeObj (obj : Object) : List Object → List Object
  | [] => []
  | c :: rest => if objEq c obj then removeObj obj rest else c :: removeObj obj rest

/-- Refractive index of the top of the containment stack (Vec::last), or
1.0 when the stack is empty. -/
def topRefractive (containers : List Object) : ℝ :=
  match containers.getLast? with
  | none => 1
  | some c => c.material.refractive_index

/-- One iteration of the prepare loop: record n1 before the stack update
when the element equals the target, update the stack (remove if contained,
push otherwise), record n2 after the update when the element equals the
target. -/
def n1n2Step (self : Intersection) (st : List Object × ℝ × ℝ) (x : Intersection) :
    List Object × ℝ × ℝ :=
  let n1 := if intersectionEq x self then topRefractive st.1 else st.2.1
  let containers :=
    if containsObj x.object st.1 then removeObj x.object st.1 else st.1 ++ [x.object]
  let n2 := if intersectionEq x self then topRefractive containers else st.2.2
  (containers, n1, n2)

/-- The n1/n2 result of the prepare loop over the full intersection list. -/
def n1n2Walk (self : Intersection) (xs : List Intersection) : ℝ × ℝ :=
  let st := xs.foldl (n1n2Step self) ([], 1, 1)
  (st.2.1, st.2.2)

/-! ### ComputedIntersection and Schlick (src/src/intersection.rs) -/

structure ComputedIntersection where
  object : Object
  point : Tuple
  eye_v : Tuple
  normal_v : Tuple
  reflect_v : Tuple
  t : ℝ
  is_inside : Prop
  over_point : Tuple
  under_point : Tuple
  n1 : ℝ
  n2 : ℝ

/-- Shared tail of ComputedIntersection::schlick: r0 + (1-r0)(1-cos)^5.
The f64 powf calls with exponents 2.0 and 5.0 are the exact integer
powers. -/
def schlickTail (n1 n2 cos : ℝ) : ℝ :=
  ((n1 - n2) / (n1 + n2)) ^ 2 +
    (1 - ((n1 - n2) / (n1 + n2)) ^ 2) * (1 - cos) ^ 5

/-- ComputedIntersection::schlick. -/
def ComputedIntersection.schlick (c : ComputedIntersection) : ℝ :=
  let cos := c.eye_v.dot c.normal_v
  if c.n1 > c.n2 then
    let n := c.n1 / c.n2
    let sin2_t := n ^ 2 * (1 - cos ^ 2)
    if sin2_t > 1 then 1
    else schlickTail c.n1 c.n2 (Real.sqrt (1 - sin2_t))
  else schlickTail c.n1 c.n2 cos

/-! ## Shape normals (Object::normal_at implementations) -/

/-- Sphere::normal_at: both calls of transform.inverse() are unwrapped. -/
def sphereNormalAt (o : Object) (p : Tuple) : Outcome Tuple :=
  (unwrapInverse o.transform.inverse).bind fun inv =>
  let object_point := inv.mulT p
  let object_normal := object_point.sub (point 0 0 0)
  (unwrapInverse o.transform.inverse).bind fun inv2 =>
  let world_normal_t := inv2.transpose.mulT object_normal
  let world_normal : Tuple := ⟨world_normal_t.x, world_normal_t.y, world_normal_t.z, 0⟩
  .ok world_normal.normalize

/-- Expansion of the max! macro for two arguments. -/
def max2 (x y : ℝ) : ℝ := if x > y then x else y

/-- Cube::normal_at: axis of the largest absolute coordinate of the given
point, tie-broken x, then y, then z. -/
def cubeNormalAt (p : Tuple) : Tuple :=
  let max_c := max2 |p.x| (max2 |p.y| |p.z|)
  if max_c = |p.x| then vector p.x 0 0
  else if max_c = |p.y| then vector 0 p.y 0
  else vector 0 0 p.z

/-- Object::normal_at dispatched over the shape variants.  Plane::normal_at
returns the constant local normal and Cube::normal_at inspects the given
point directly; neither consults the placement transform. -/
def Object.normal_at (o : Object) (p : Tuple) : Outcome Tuple :=
  match o.kind with
  | .sphere => sphereNormalAt o p
  | .plane => .ok (vector 0 1 0)
  | .cube => .ok (cubeNormalAt p)

/-! ## Shape intersection (Object::intersect implementations) -/

/-- Sphere::intersect: quadratic in t on the locally transformed ray,
Err when the placement matrix is not invertible. -/
def sphereIntersect (o : Object) (r : Ray) : Outcome (List Intersection) :=
  match o.transform.inverse with
  | some matrix =>
      let ray2 := r.transform matrix
      let sphere_to_ray := ray2.origin.sub (point 0 0 0)
      let a := ray2.direction.dot ray2.direction
      let b := 2 * ray2.direction.dot sphere_to_ray
      let c := sphere_to_ray.dot sphere_to_ray - 1
      let discriminant := b ^ 2 - 4 * a * c
      if discriminant < 0 then .ok []
      else .ok [intersection ((-b - Real.sqrt discriminant) / (2 * a)) o,
                intersection ((-b + Real.sqrt discriminant) / (2 * a)) o]
  | none => .err

/-- Plane::intersect: Err (question-mark operator) when the placement is
not invertible, no intersection when the local ray is parallel. -/
def planeIntersect (o : Object) (r : Ray) : Outcome (List Intersection) :=
  (tryInverse o.transform.inverse).bind fun inv =>
  let ray2 := r.transform inv
  if |ray2.direction.y| < EPSILON then .ok []
  else .ok [intersection (-ray2.origin.y / ray2.direction.y) o]

/-! ### Cube slab arithmetic

Cube::check_axis multiplies by f64::INFINITY when a direction component is
below EPSILON, so its t values are modelled by RVal: a finite real, a
signed infinity, or NaN (the IEEE product 0 * infinity), with the IEEE
comparison semantics (every comparison with NaN is false). -/

inductive RVal where
  | fin (x : ℝ)
  | pinf
  | ninf
  | nan

/-- IEEE strict greater-than on modelled f64 values. -/
def RVal.gt : RVal → RVal → Prop
  | .fin a, .fin b => a > b
  | .fin _, .ninf => True
  | .pinf, .fin _ => True
  | .pinf, .ninf => True
  | _, _ => False

/-- IEEE strict less-than on modelled f64 values. -/
def RVal.lt : RVal → RVal → Prop
  | .fin a, .fin b => a < b
  | .fin _, .pinf => True
  | .ninf, .fin _ => True
  | .ninf, .pinf => True
  | _, _ => False

/-- Product of a finite f64 with f64::INFINITY. -/
def mulInf (x : ℝ) : RVal :=
  if x > 0 then .pinf else if x < 0 then .ninf else .nan

/-- Expansion of the max! macro on slab values (uses strict gt). -/
def maxR (a b : RVal) : RVal := if RVal.gt a b then a else b

/-- Expansion of the min! macro on slab values (uses strict lt). -/
def minR (a b : RVal) : RVal := if RVal.lt a b then a else b

/-- Cube::check_axis. -/
def check_axis (origin direction : ℝ) : RVal × RVal :=
  let t_min_numerator := -1 - origin
  let t_max_numerator := 1 - origin
  let tm : RVal × RVal :=
    if |direction| ≥ EPSILON then
      (.fin (t_min_numerator / direction), .fin (t_max_numerator / direction))
    else (mulInf t_min_numerator, mulInf t_max_numerator)
  if RVal.gt tm.1 tm.2 then (tm.2, tm.1) else tm

/-- Cube::intersect at the slab level, keeping the t values as modelled
f64 values (possibly non-finite). -/
def cubeIntersectT (o : Object) (r : Ray) : Outcome (List RVal) :=
  (tryInverse o.transform.inverse).bind fun inv =>
  let ray2 := r.transform inv
  let xs := check_axis ray2.origin.x ray2.direction.x
  let ys := check_axis ray2.origin.y ray2.direction.y
  let zs := check_axis ray2.origin.z ray2.direction.z
  let t_min := maxR xs.1 (maxR ys.1 zs.1)
  let t_max := minR xs.2 (minR ys.2 zs.2)
  if RVal.gt t_min t_max then .ok [] else .ok [t_min, t_max]

/-- Projection of a slab value to the real t stored in an Intersection.
Non-finite values are projected to 0; they can reach the intersection
list only for degenerate rays whose direction is smaller than EPSILON on
every axis (any finite slab dominates an infinite one in max!/min!),
which the world-level real idealization does not track. -/
def RVal.toReal : RVal → ℝ
  | .fin x => x
  | _ => 0

/-- Cube::intersect as seen by the world (t values as reals). -/
def cubeIntersect (o : Object) (r : Ray) : Outcome (List Intersection) :=
  (cubeIntersectT o r).bind fun ts => .ok (ts.map (fun t => intersection t.toReal o))

/-- Object::intersect dispatched over the shape variants. -/
def Object.intersect (o : Object) (r : Ray) : Outcome (List Intersection) :=
  match o.kind with
  | .sphere => sphereIntersect o r
  | .plane => planeIntersect o r
  | .cube => cubeIntersect o r

/-! ## Intersection::prepare -/

def Intersection.prepare (self : Intersection) (r : Ray) (xs : List Intersection) :
    Outcome ComputedIntersection :=
  (self.object.normal_at (r.position self.t)).bind fun normal_v0 =>
  let pt := r.position self.t
  let eye_v := r.direction.neg
  let normal_v := if normal_v0.dot eye_v < 0 then normal_v0.neg else normal_v0
  let reflect_v := r.direction.reflect normal_v
  let over_point := pt.add (normal_v.mul EPSILON)
  let under_point := pt.sub (normal_v.mul EPSILON)
  let nn := n1n2Walk self xs
  .ok ⟨self.object, pt, eye_v, normal_v, reflect_v, self.t,
       normal_v0.dot eye_v < 0, over_point, under_point, nn.1, nn.2⟩

/-! ## Lights and World (src/ray_tracer_lib/src/light.rs, src/src/world.rs) -/

structure PointLight where
  position : Tuple
  intensity : Color

structure World where
  objects : List Object
  light_sources : List PointLight

/-- Modelled from the spec: Object::inverse (used by Material::lighting for
pattern-space mapping) is a provided trait method not under src; per its
call sites it yields the inverted placement matrix directly, so a failed
inversion is an unwrap panic. -/
def Object.inverse (o : Object) : Outcome Matrix := unwrapInverse o.transform.inverse

/-- Material::lighting (the src/src/material.rs version, which samples the
pattern through the object's inverted placement).  Color::default() is
Color(0,0,0). -/
def Material.lighting (m : Material) (object : Object) (light : PointLight)
    (pt eye_v normal_v : Tuple) (in_shadow : Prop) : Outcome Color :=
  object.inverse.bind fun inv =>
  let object_point := inv.mulT pt
  let start_color := m.pattern.color_at_object object_point
  let effective_color := start_color.mulC light.intensity
  let light_v := (light.position.sub pt).normalize
  let ambient := effective_color.mulS m.ambient
  let light_dot_normal := light_v.dot normal_v
  let diffuse :=
    if light_dot_normal < 0 then BLACK
    else (effective_color.mulS m.diffuse).mulS light_dot_normal
  let specular :=
    if light_dot_normal < 0 then BLACK
    else
      let reflect_v := light_v.neg.reflect normal_v
      let reflect_dot_eye := reflect_v.dot eye_v
      if reflect_dot_eye ≤ 0 then BLACK
      else (light.intensity.mulS m.specular).mulS (reflect_dot_eye ^ m.shininess)
  if in_shadow then .ok ambient else .ok ((ambient.add diffuse).add specular)

/-- World::intersect's loop: each object's Result is unwrapped (an Err
becomes a panic) and the lists are appended in object order. -/
def intersectAll (r : Ray) : List Object → Outcome (List Intersection)
  | [] => .ok []
  | o :: rest =>
      (Outcome.unwrapResult (o.intersect r)).bind fun xs =>
      (intersectAll r rest).bind fun acc => .ok (xs ++ acc)

/-- World::intersect: concatenate all local intersections, sort by t. -/
def World.intersect (w : World) (r : Ray) : Outcome (List Intersection) :=
  (intersectAll r w.objects).bind fun xs => .ok (sortByT xs)

/-- World::is_shadowed. -/
def World.is_shadowed (w : World) (pt : Tuple) (light : PointLight) : Outcome Prop :=
  let v := light.position.sub pt
  let distance := v.magnitude
  let direction := v.normalize
  (w.intersect (ray pt direction)).bind fun xs =>
  match hit xs with
  | some h => .ok (h.t < distance)
  | none => .ok False

mutual

/-- World::color_at. -/
def World.color_at (w : World) (r : Ray) (remaining : ℕ) : Outcome Color :=
  (w.intersect r).bind fun intersections =>
  match hit intersections with
  | some h =>
      (h.prepare r intersections).bind fun comps =>
      World.shade_hit w comps remaining
  | none => .ok (color 0 0 0)
termination_by ((remaining, 3, 0) : ℕ × ℕ × ℕ)

/-- World::shade_hit: fold the per-light contributions. -/
def World.shade_hit (w : World) (comps : ComputedIntersection) (remaining : ℕ) :
    Outcome Color :=
  World.shadeFold w comps remaining w.light_sources (color 0 0 0)
termination_by ((remaining, 2, 0) : ℕ × ℕ × ℕ)

/-- Body of the shade_hit fold over light sources: surface lighting plus
reflected and refracted contributions, Fresnel-blended via schlick when
the material is both reflective and transparent. -/
def World.shadeFold (w : World) (comps : ComputedIntersection) (remaining : ℕ) :
    List PointLight → Color → Outcome Color
  | [], acc => .ok acc
  | light :: rest, acc =>
      (w.is_shadowed comps.over_point light).bind fun shad =>
      (comps.object.material.lighting comps.object light comps.over_point
        comps.eye_v comps.normal_v shad).bind fun lcol =>
      let surface := acc.add lcol
      (World.reflected_color w comps remaining).bind fun reflected =>
      (World.refracted_color w comps remaining).bind fun refracted =>
      let material := comps.object.material
      let combined :=
        if material.reflective > 0 ∧ material.transparency > 0 then
          let reflectance := comps.schlick
          surface.add ((reflected.mulS reflectance).add
            (refracted.mulS (1 - reflectance)))
        else surface.add (reflected.add refracted)
      World.shadeFold w comps remaining rest combined
termination_by lights _ => ((remaining, 1, lights.length) : ℕ × ℕ × ℕ)

/-- World::reflected_color. -/
def World.reflected_color (w : World) (comps : ComputedIntersection)
    (remaining : ℕ) : Outcome Color :=
  if comps.object.material.reflective = 0 ∨ remaining = 0 then .ok (color 0 0 0)
  else
    (World.color_at w (ray comps.over_point comps.reflect_v) (remaining - 1)).bind
      fun c => .ok (c.mulS comps.object.material.reflective)
termination_by ((remaining, 0, 0) : ℕ × ℕ × ℕ)

/-- World::refracted_color. -/
def World.refracted_color (w : World) (comps : ComputedIntersection)
    (remaining : ℕ) : Outcome Color :=
  if comps.object.material.transparency = 0 ∨ remaining = 0 then .ok (color 0 0 0)
  else
    let n_ratio := comps.n1 / comps.n2
    let cos_i := comps.eye_v.dot comps.normal_v
    let sin2_t := n_ratio ^ 2 * (1 - cos_i ^ 2)
    if sin2_t > 1 then .ok (color 0 0 0)
    else
      let cos_t := Real.sqrt (1 - sin2_t)
      let direction := (comps.normal_v.mul (n_ratio * cos_i - cos_t)).sub
        (comps.eye_v.mul n_ratio)
      (World.color_at w (ray comps.under_point direction) (remaining - 1)).bind
        fun c => .ok (c.mulS comps.object.material.transparency)
termination_by ((remaining, 0, 0) : ℕ × ℕ × ℕ)

end

/-! ## Camera (src/src/camera.rs) -/

structure Camera where
  h_size : ℕ
  v_size : ℕ
  transform : Matrix
  half_width : ℝ
  half_height : ℝ
  pixel_size : ℝ

/-- Camera::new. -/
def Camera.new (h_size v_size : ℕ) (field_of_view : ℝ) (transform : Option Matrix) :
    Camera :=
  let half_view := Real.tan (field_of_view / 2)
  let aspect := (h_size : ℝ) / (v_size : ℝ)
  let half_width := if aspect ≥ 1 then half_view else half_view * aspect
  let half_height := if aspect ≥ 1 then half_view / aspect else half_view
  { h_size := h_size, v_size := v_size,
    pixel_size := half_width * 2 / (h_size : ℝ),
    half_height := half_height, half_width := half_width,
    transform := transform.getD Matrix.identity }

/-- Camera::ray_for_pixel: both calls of transform.inverse() are
unwrapped. -/
def Camera.ray_for_pixel (c : Camera) (px py : ℝ) : Outcome Ray :=
  let x_offset := (px + 1 / 2) * c.pixel_size
  let y_offset := (py + 1 / 2) * c.pixel_size
  let world_x := c.half_width - x_offset
  let world_y := c.half_height - y_offset
  (unwrapInverse c.transform.inverse).bind fun inv =>
  let pixel := inv.mulT (point world_x world_y (-1))
  (unwrapInverse c.transform.inverse).bind fun inv2 =>
  let origin := inv2.mulT (point 0 0 0)
  let direction := (pixel.sub origin).normalize
  .ok (ray origin direction)

/-! ## Spec-side definitions for refinement claims -/

/-- Recursive form of the refractive-index walk following the wording of
the spec: maintain a stack of currently-entered shapes; on an element
equal to the target record n1 from the stack top (1.0 when empty) before
the update; push the shape when absent, remove it by identity when
present; on an element equal to the target record n2 the same way after
the update. -/
def specWalkAux (target : Intersection) (stack : List Object) (n1 n2 : ℝ) :
    List Intersection → ℝ × ℝ
  | [] => (n1, n2)
  | x :: rest =>
      let n1' := if intersectionEq x target then topRefractive stack else n1
      let stack' := if containsObj x.object stack then removeObj x.object stack
                    else stack ++ [x.object]
      let n2' := if intersectionEq x target then topRefractive stack' else n2
      specWalkAux target stack' n1' n2' rest

def specWalk (target : Intersection) (xs : List Intersection) : ℝ × ℝ :=
  specWalkAux target [] 1 1 xs

/-! ## Helper lemmas -/

theorem colorEq_refl (c : Color) : colorEq c c := by
  norm_num [colorEq, EPSILON]

theorem matrixEq_refl (m : Matrix) : matrixEq m m := by
  intro y _ x _
  simp

theorem templateEq_refl (t : Template) : templateEq t t := by
  cases t <;> simp [templateEq, colorEq_refl]

theorem patternEq_refl (p : Pattern) : patternEq p p :=
  ⟨templateEq_refl _, matrixEq_refl _, matrixEq_refl _⟩

theorem materialEq_refl (m : Material) : materialEq m m := by
  refine ⟨?_, ?_, ?_, ?_, patternEq_refl _⟩ <;> norm_num [EPSILON]

theorem specWalkAux_eq_foldl (target : Intersection) :
    ∀ (xs : List Intersection) (stack : List Object) (n1 n2 : ℝ),
      specWalkAux target stack n1 n2 xs =
        ((xs.foldl (n1n2Step target) (stack, n1, n2)).2.1,
         (xs.foldl (n1n2Step target) (stack, n1, n2)).2.2)
  | [], _, _, _ => rfl
  | x :: rest, stack, n1, n2 => by
      rw [specWalkAux, List.foldl_cons]
      exact specWalkAux_eq_foldl target rest _ _ _

theorem n1n2Walk_eq_specWalk (target : Intersection) (xs : List Intersection) :
    n1n2Walk target xs = specWalk target xs := by
  rw [n1n2Walk, specWalk, specWalkAux_eq_foldl]

/-- C3: prepare computes n1 and n2 by walking the t-sorted list in order
with a stack of currently-entered shapes; at an element equal to the
target (Intersection's PartialEq) n1 is recorded from the stack top (1.0
when empty) before the update, the element's shape is pushed when absent
and removed by its unique identifier when present, and n2 is recorded the
same way after the update. -/
theorem C3_prepare_refractive_walk (self : Intersection) (r : Ray)
    (xs : List Intersection) (comps : ComputedIntersection)
    (h : self.prepare r xs = .ok comps) :
    (comps.n1, comps.n2) = specWalk self xs := by
  rw [Intersection.prepare] at h
  cases hn : self.object.normal_at (r.position self.t) with
  | ok nv =>
      rw [hn] at h
      simp only [Outcome.bind] at h
      cases h
      simpa using (n1n2Walk_eq_specWalk self xs)
  | err => rw [hn] at h; simp [Outcome.bind] at h
  | panicked => rw [hn] at h; simp [Outcome.bind] at h

/-- C5: reflected_color is black when the reflective coefficient is 0 or
the budget is exhausted, refracted_color is black when transparency is 0,
the budget is exhausted, or sin2_t > 1 (before casting any ray);
otherwise each casts its secondary ray from over_point / under_point,
recurses into color_at with remaining-1 and scales by its coefficient. -/
theorem C5_secondary_colors (w : World) (comps : ComputedIntersection)
    (remaining : ℕ) :
    (comps.object.material.reflective = 0 ∨ remaining = 0 →
      World.reflected_color w comps remaining = .ok (color 0 0 0)) ∧
    (comps.object.material.reflective ≠ 0 → remaining ≠ 0 →
      World.reflected_color w comps remaining =
        (World.color_at w (ray comps.over_point comps.reflect_v) (remaining - 1)).bind
          (fun c => .ok (c.mulS comps.object.material.reflective))) ∧
    (comps.object.material.transparency = 0 ∨ remaining = 0 →
      World.refracted_color w comps remaining = .ok (color 0 0 0)) ∧
    (comps.object.material.transparency ≠ 0 → remaining ≠ 0 →
      (comps.n1 / comps.n2) ^ 2 * (1 - (comps.eye_v.dot comps.normal_v) ^ 2) > 1 →
      World.refracted_color w comps remaining = .ok (color 0 0 0)) ∧
    (comps.object.material.transparency ≠ 0 → remaining ≠ 0 →
      ¬((comps.n1 / comps.n2) ^ 2 * (1 - (comps.eye_v.dot comps.normal_v) ^ 2) > 1) →
      World.refracted_color w comps remaining =
        (World.color_at w
          (ray comps.under_point
            ((comps.normal_v.mul ((comps.n1 / comps.n2) * comps.eye_v.dot comps.normal_v -
                Real.sqrt (1 - (comps.n1 / comps.n2) ^ 2 *
                  (1 - (comps.eye_v.dot comps.normal_v) ^ 2)))).sub
              (comps.eye_v.mul (comps.n1 / comps.n2))))
          (remaining - 1)).bind
          (fun c => .ok (c.mulS comps.object.material.transparency))) := by
  refine ⟨?_, ?_, ?_, ?_, ?_⟩
  · intro h
    rw [World.reflected_color, if_pos h]
  · intro h1 h2
    rw [World.reflected_color, if_neg (by tauto)]
  · intro h
    rw [World.refracted_color, if_pos h]
  · intro h1 h2 h3
    rw [World.refracted_color, if_neg (by tauto)]
    simp only [if_pos h3]
  · intro h1 h2 h3
    rw [World.refracted_color, if_neg (by tauto)]
    simp only [if_neg h3]

theorem sortByT_perm (xs : List Intersection) : (sortByT xs).Perm xs :=
  List.mergeSort_perm xs _

theorem sortByT_sorted (xs : List Intersection) :
    (sortByT xs).Pairwise (fun a b => a.t ≤ b.t) := by
  have h := @List.sorted_mergeSort Intersection
    (fun a b : Intersection => decide (a.t ≤ b.t))
    (fun a b c hab hbc => by
      simp only [decide_eq_true_eq] at *
      exact le_trans hab hbc)
    (fun a b => by
      simp only [Bool.or_eq_true, decide_eq_true_eq]
      exact le_total a.t b.t)
    xs
  exact h.imp (fun hab => by simpa using hab)

theorem findNonNeg_eq_none (l : List Intersection) (h : ∀ i ∈ l, i.t < 0) :
    findNonNeg l = none := by
  induction l with
  | nil => rfl
  | cons x rest ih =>
      rw [findNonNeg, if_neg (not_le.mpr (h x (by simp)))]
      exact ih (fun i hi => h i (by simp [hi]))

theorem findNonNeg_some (l : List Intersection) (j : Intersection)
    (h : findNonNeg l = some j) : j ∈ l ∧ 0 ≤ j.t := by
  induction l with
  | nil => simp [findNonNeg] at h
  | cons x rest ih =>
      rw [findNonNeg] at h
      by_cases hx : 0 ≤ x.t
      · rw [if_pos hx] at h
        cases h
        exact ⟨by simp, hx⟩
      · rw [if_neg hx] at h
        rcases ih h with ⟨hm, ht⟩
        exact ⟨by simp [hm], ht⟩

theorem findNonNeg_isSome (l : List Intersection) (h : ∃ i ∈ l, 0 ≤ i.t) :
    ∃ j, findNonNeg l = some j := by
  induction l with
  | nil => simp at h
  | cons x rest ih =>
      rw [findNonNeg]
      by_cases hx : 0 ≤ x.t
      · exact ⟨x, if_pos hx⟩
      · rw [if_neg hx]
        rcases h with ⟨i, hi, hit⟩
        rcases List.mem_cons.mp hi with rfl | hmem
        · exact absurd hit hx
        · exact ih ⟨i, hmem, hit⟩

theorem findNonNeg_min (l : List Intersection) (j : Intersection)
    (hsort : l.Pairwise (fun a b => a.t ≤ b.t)) (h : findNonNeg l = some j) :
    ∀ i ∈ l, 0 ≤ i.t → j.t ≤ i.t := by
  induction l with
  | nil => simp [findNonNeg] at h
  | cons x rest ih =>
      rw [findNonNeg] at h
      rcases List.pairwise_cons.mp hsort with ⟨hx_le, htail⟩
      by_cases hx : 0 ≤ x.t
      · rw [if_pos hx] at h
        cases h
        intro i hi _
        rcases List.mem_cons.mp hi with rfl | hmem
        · exact le_refl _
        · exact hx_le i hmem
      · rw [if_neg hx] at h
        intro i hi hit
        rcases List.mem_cons.mp hi with rfl | hmem
        · exact absurd hit hx
        · exact ih htail h i hmem hit

/-- C7: hit sorts the list ascending by t and returns the first
intersection with non-negative t, so the result is a minimal-t element
among the non-negative ones; intersections with negative t are ignored
and an all-negative list yields None. -/
theorem C7_hit_selection (xs : List Intersection) :
    ((∀ i ∈ xs, i.t < 0) → hit xs = none) ∧
    ((∃ i ∈ xs, 0 ≤ i.t) → ∃ j, hit xs = some j) ∧
    (∀ j, hit xs = some j →
      j ∈ xs ∧ 0 ≤ j.t ∧ ∀ i ∈ xs, 0 ≤ i.t → j.t ≤ i.t) := by
  refine ⟨?_, ?_, ?_⟩
  · intro h
    exact findNonNeg_eq_none _ (fun i hi => h i ((sortByT_perm xs).mem_iff.mp hi))
  · intro h
    rcases h with ⟨i, hi, hit0⟩
    exact findNonNeg_isSome _ ⟨i, (sortByT_perm xs).mem_iff.mpr hi, hit0⟩
  · intro j hj
    rcases findNonNeg_some _ _ hj with ⟨hm, ht⟩
    refine ⟨(sortByT_perm xs).mem_iff.mp hm, ht, ?_⟩
    intro i hi hit0
    exact findNonNeg_min _ _ (sortByT_sorted xs) hj i
      ((sortByT_perm xs).mem_iff.mpr hi) hit0

/-- C10: Material's PartialEq compares only ambient, diffuse, specular,
shininess (within EPSILON) and the pattern, ignoring reflective,
transparency and refractive_index entirely, so two intersections whose t
values are within EPSILON and whose objects carry such materials compare
equal, and an element of prepare's containment walk that is equal to the
target triggers the n1 recording. -/
theorem C10_material_eq_ignores_optics (m o : Material)
    (ha : |m.ambient - o.ambient| < EPSILON)
    (hd : |m.diffuse - o.diffuse| < EPSILON)
    (hs : |m.specular - o.specular| < EPSILON)
    (hsh : |m.shininess - o.shininess| < EPSILON)
    (hp : patternEq m.pattern o.pattern) :
    materialEq m o ∧
    (∀ i1 i2 : Intersection, |i1.t - i2.t| < EPSILON →
      i1.object.material = m → i2.object.material = o → intersectionEq i1 i2) ∧
    (∀ (self x : Intersection) (st : List Object × ℝ × ℝ),
      intersectionEq x self → (n1n2Step self st x).2.1 = topRefractive st.1) := by
  refine ⟨⟨ha, hd, hs, hsh, hp⟩, ?_, ?_⟩
  · intro i1 i2 ht h1 h2
    exact ⟨ht, by rw [h1, h2]; exact ⟨ha, hd, hs, hsh, hp⟩⟩
  · intro self x st hx
    simp [n1n2Step, if_pos hx]

/-! ## Fuel-indexed form of the recursive shading pipeline

The functions below replay color_at / shade_hit / reflected_color /
refracted_color with an explicit fuel counter that is consumed once per
nested color_at activation, returning none when the fuel runs out; the
equivalence theorem below shows a fuel of remaining+1 always suffices,
which is the depth bound of the recursion. -/

def olift {α : Type} (x : Outcome α) : Option (Outcome α) := some x

def obind {α β : Type} : Option (Outcome α) → (α → Option (Outcome β)) →
    Option (Outcome β)
  | none, _ => none
  | some (.ok a), g => g a
  | some .err, _ => some .err
  | some .panicked, _ => some .panicked

theorem obind_olift {α β : Type} (x : Outcome α) (g : α → Option (Outcome β))
    (G : α → Outcome β) (h : ∀ a, g a = some (G a)) :
    obind (olift x) g = some (x.bind G) := by
  cases x <;> simp [obind, olift, Outcome.bind, h]

mutual

def colorAtF : ℕ → World → Ray → ℕ → Option (Outcome Color)
  | 0, _, _, _ => none
  | f + 1, w, r, remaining =>
      obind (olift (w.intersect r)) fun intersections =>
      match hit intersections with
      | some h =>
          obind (olift (h.prepare r intersections)) fun comps =>
          shadeHitF f w comps remaining
      | none => some (.ok (color 0 0 0))
termination_by f => ((f, 0, 0) : ℕ × ℕ × ℕ)

def shadeHitF (f : ℕ) (w : World) (comps : ComputedIntersection) (remaining : ℕ) :
    Option (Outcome Color) :=
  shadeFoldF f w comps remaining w.light_sources (color 0 0 0)
termination_by ((f, 3, 0) : ℕ × ℕ × ℕ)

def shadeFoldF (f : ℕ) (w : World) (comps : ComputedIntersection) (remaining : ℕ) :
    List PointLight → Color → Option (Outcome Color)
  | [], acc => some (.ok acc)
  | light :: rest, acc =>
      obind (olift (w.is_shadowed comps.over_point light)) fun shad =>
      obind (olift (comps.object.material.lighting comps.object light comps.over_point
        comps.eye_v comps.normal_v shad)) fun lcol =>
      let surface := acc.add lcol
      obind (reflectedColorF f w comps remaining) fun reflected =>
      obind (refractedColorF f w comps remaining) fun refracted =>
      let material := comps.object.material
      let combined :=
        if material.reflective > 0 ∧ material.transparency > 0 then
          let reflectance := comps.schlick
          surface.add ((reflected.mulS reflectance).add
            (refracted.mulS (1 - reflectance)))
        else surface.add (reflected.add refracted)
      shadeFoldF f w comps remaining rest combined
termination_by lights _ => ((f, 2, lights.length) : ℕ × ℕ × ℕ)

def reflectedColorF (f : ℕ) (w : World) (comps : ComputedIntersection)
    (remaining : ℕ) : Option (Outcome Color) :=
  if comps.object.material.reflective = 0 ∨ remaining = 0 then some (.ok (color 0 0 0))
  else
    obind (colorAtF f w (ray comps.over_point comps.reflect_v) (remaining - 1))
      fun c => some (.ok (c.mulS comps.object.material.reflective))
termination_by ((f, 1, 0) : ℕ × ℕ × ℕ)

def refractedColorF (f : ℕ) (w : World) (comps : ComputedIntersection)
    (remaining : ℕ) : Option (Outcome Color) :=
  if comps.object.material.transparency = 0 ∨ remaining = 0 then some (.ok (color 0 0 0))
  else
    let n_ratio := comps.n1 / comps.n2
    let cos_i := comps.eye_v.dot comps.normal_v
    let sin2_t := n_ratio ^ 2 * (1 - cos_i ^ 2)
    if sin2_t > 1 then some (.ok (color 0 0 0))
    else
      let cos_t := Real.sqrt (1 - sin2_t)
      let direction := (comps.normal_v.mul (n_ratio * cos_i - cos_t)).sub
        (comps.eye_v.mul n_ratio)
      obind (colorAtF f w (ray comps.under_point direction) (remaining - 1))
        fun c => some (.ok (c.mulS comps.object.material.transparency))
termination_by ((f, 1, 0) : ℕ × ℕ × ℕ)

end

theorem fuel_suffices (f : ℕ) :
    (∀ w r rem, rem < f → colorAtF f w r rem = some (World.color_at w r rem)) ∧
    (∀ w comps rem, rem ≤ f →
      reflectedColorF f w comps rem = some (World.reflected_color w comps rem)) ∧
    (∀ w comps rem, rem ≤ f →
      refractedColorF f w comps rem = some (World.refracted_color w comps rem)) ∧
    (∀ w comps rem lights acc, rem ≤ f →
      shadeFoldF f w comps rem lights acc =
        some (World.shadeFold w comps rem lights acc)) ∧
    (∀ w comps rem, rem ≤ f →
      shadeHitF f w comps rem = some (World.shade_hit w comps rem)) := by
  induction f with
  | zero =>
      have hca : ∀ (w : World) (r : Ray) (rem : ℕ), rem < 0 →
          colorAtF 0 w r rem = some (World.color_at w r rem) := by
        intro w r rem h
        exact absurd h (Nat.not_lt_zero rem)
      have hre : ∀ (w : World) (comps : ComputedIntersection) (rem : ℕ), rem ≤ 0 →
          reflectedColorF 0 w comps rem = some (World.reflected_color w comps rem) := by
        intro w comps rem h
        have h0 : rem = 0 := Nat.le_zero.mp h
        subst h0
        rw [reflectedColorF, if_pos (Or.inr rfl),
          World.reflected_color, if_pos (Or.inr rfl)]
      have hrf : ∀ (w : World) (comps : ComputedIntersection) (rem : ℕ), rem ≤ 0 →
          refractedColorF 0 w comps rem = some (World.refracted_color w comps rem) := by
        intro w comps rem h
        have h0 : rem = 0 := Nat.le_zero.mp h
        subst h0
        rw [refractedColorF, if_pos (Or.inr rfl),
          World.refracted_color, if_pos (Or.inr rfl)]
      have hsf : ∀ (w : World) (comps : ComputedIntersection) (rem : ℕ)
          (lights : List PointLight) (acc : Color), rem ≤ 0 →
          shadeFoldF 0 w comps rem lights acc =
            some (World.shadeFold w comps rem lights acc) := by
        intro w comps rem lights
        induction lights with
        | nil => intro acc h; rw [shadeFoldF, World.shadeFold]
        | cons light rest ih =>
            intro acc h
            rw [shadeFoldF, World.shadeFold]
            refine obind_olift _ _ _ (fun shad => ?_)
            refine obind_olift _ _ _ (fun lcol => ?_)
            rw [hre w comps rem h]
            refine obind_olift _ _ _ (fun reflected => ?_)
            rw [hrf w comps rem h]
            refine obind_olift _ _ _ (fun refracted => ?_)
            exact ih _ h
      refine ⟨hca, hre, hrf, hsf, ?_⟩
      intro w comps rem h
      rw [shadeHitF, World.shade_hit]
      exact hsf w comps rem w.light_sources (color 0 0 0) h
  | succ f ih =>
      have hca : ∀ (w : World) (r : Ray) (rem : ℕ), rem < f + 1 →
          colorAtF (f + 1) w r rem = some (World.color_at w r rem) := by
        intro w r rem h
        rw [colorAtF, World.color_at]
        refine obind_olift _ _ _ (fun intersections => ?_)
        cases hit intersections with
        | some hitI =>
            simp only []
            refine obind_olift _ _ _ (fun comps => ?_)
            exact ih.2.2.2.2 w comps rem (Nat.lt_succ_iff.mp h)
        | none => rfl
      have hre : ∀ (w : World) (comps : ComputedIntersection) (rem : ℕ), rem ≤ f + 1 →
          reflectedColorF (f + 1) w comps rem =
            some (World.reflected_color w comps rem) := by
        intro w comps rem h
        rw [reflectedColorF, World.reflected_color]
        by_cases hz : comps.object.material.reflective = 0 ∨ rem = 0
        · rw [if_pos hz, if_pos hz]
        · rw [if_neg hz, if_neg hz]
          have hrem : rem ≠ 0 := fun hr => hz (Or.inr hr)
          have hlt : rem - 1 < f + 1 :=
            lt_of_lt_of_le (Nat.pred_lt hrem) h
          rw [hca w _ (rem - 1) hlt]
          exact obind_olift _ _ _ (fun c => rfl)
      have hrf : ∀ (w : World) (comps : ComputedIntersection) (rem : ℕ), rem ≤ f + 1 →
          refractedColorF (f + 1) w comps rem =
            some (World.refracted_color w comps rem) := by
        intro w comps rem h
        rw [refractedColorF, World.refracted_color]
        by_cases hz : comps.object.material.transparency = 0 ∨ rem = 0
        · rw [if_pos hz, if_pos hz]
        · rw [if_neg hz, if_neg hz]
          have hrem : rem ≠ 0 := fun hr => hz (Or.inr hr)
          have hlt : rem - 1 < f + 1 :=
            lt_of_lt_of_le (Nat.pred_lt hrem) h
          by_cases hs : (comps.n1 / comps.n2) ^ 2 *
              (1 - (comps.eye_v.dot comps.normal_v) ^ 2) > 1
          · simp only [if_pos hs]
          · simp only [if_neg hs]
            rw [hca w _ (rem - 1) hlt]
            exact obind_olift _ _ _ (fun c => rfl)
      have hsf : ∀ (w : World) (comps : ComputedIntersection) (rem : ℕ)
          (lights : List PointLight) (acc : Color), rem ≤ f + 1 →
          shadeFoldF (f + 1) w comps rem lights acc =
            some (World.shadeFold w comps rem lights acc) := by
        intro w comps rem lights
        induction lights with
        | nil => intro acc h; rw [shadeFoldF, World.shadeFold]
        | cons light rest ihl =>
            intro acc h
            rw [shadeFoldF, World.shadeFold]
            refine obind_olift _ _ _ (fun shad => ?_)
            refine obind_olift _ _ _ (fun lcol => ?_)
            rw [hre w comps rem h]
            refine obind_olift _ _ _ (fun reflected => ?_)
            rw [hrf w comps rem h]
            refine obind_olift _ _ _ (fun refracted => ?_)
            exact ihl _ h
      refine ⟨hca, hre, hrf, hsf, ?_⟩
      intro w comps rem h
      rw [shadeHitF, World.shade_hit]
      exact hsf w comps rem w.light_sources (color 0 0 0) h

/-- C6: the color_at / shade_hit / reflected_color / refracted_color
recursion is bounded by the remaining budget: replaying it with an
explicit fuel counter consumed once per nested color_at activation never
runs out of fuel once the fuel exceeds the initial remaining, so the
recursion depth is bounded by the initial remaining and the computation
terminates. -/
theorem C6_recursion_depth_bounded (w : World) (r : Ray) (remaining fuel : ℕ)
    (h : remaining < fuel) :
    colorAtF fuel w r remaining = some (World.color_at w r remaining) :=
  (fuel_suffices fuel).1 w r remaining h

/-! ## Determinant expansion lemmas -/

theorem detAux_zero (m : Matrix) : detAux 0 m = 0 := rfl

theorem detAux_one (m : Matrix) :
    detAux 1 m =
      ∑ c ∈ Finset.range 1,
        m.at 0 c *
          (if (0 + c) % 2 = 0 then detAux 0 (m.submatrix 0 c)
           else -detAux 0 (m.submatrix 0 c)) := rfl

theorem detAux_two (m : Matrix) :
    detAux 2 m = m.at 0 0 * m.at 1 1 - m.at 0 1 * m.at 1 0 := rfl

theorem detAux_three (m : Matrix) :
    detAux 3 m =
      ∑ c ∈ Finset.range 3,
        m.at 0 c *
          (if (0 + c) % 2 = 0 then detAux 2 (m.submatrix 0 c)
           else -detAux 2 (m.submatrix 0 c)) := rfl

theorem detAux_four (m : Matrix) :
    detAux 4 m =
      ∑ c ∈ Finset.range 4,
        m.at 0 c *
          (if (0 + c) % 2 = 0 then detAux 3 (m.submatrix 0 c)
           else -detAux 3 (m.submatrix 0 c)) := rfl

theorem submatrix_values (m : Matrix) (row column y x : ℕ) :
    (m.submatrix row column).values y x =
      if y < m.size - 1 ∧ x < m.size - 1 then
        m.values (if y < row then y else y + 1) (if x < column then x else x + 1)
      else 0 := rfl

theorem det_two_expand (m : Matrix) (h : m.size = 2) :
    m.determinant = m.values 0 0 * m.values 1 1 - m.values 0 1 * m.values 1 0 := by
  rw [Matrix.determinant, h, detAux_two]
  rfl

theorem det_three_expand (m : Matrix) (h : m.size = 3) :
    m.determinant =
      m.values 0 0 * (m.values 1 1 * m.values 2 2 - m.values 1 2 * m.values 2 1)
      - m.values 0 1 * (m.values 1 0 * m.values 2 2 - m.values 1 2 * m.values 2 0)
      + m.values 0 2 * (m.values 1 0 * m.values 2 1 - m.values 1 1 * m.values 2 0) := by
  rw [Matrix.determinant, h, detAux_three]
  simp only [Finset.sum_range_succ, Finset.sum_range_zero, detAux_two, Matrix.at,
    submatrix_values, h]
  norm_num
  ring

/-- Closed form of a 3x3 determinant given by rows. -/
def det3 (a b c d e f g h i : ℝ) : ℝ :=
  a * (e * i - f * h) - b * (d * i - f * g) + c * (d * h - e * g)

theorem det_four_expand (m : Matrix) (h : m.size = 4) :
    m.determinant =
      m.values 0 0 * det3 (m.values 1 1) (m.values 1 2) (m.values 1 3)
        (m.values 2 1) (m.values 2 2) (m.values 2 3)
        (m.values 3 1) (m.values 3 2) (m.values 3 3)
      - m.values 0 1 * det3 (m.values 1 0) (m.values 1 2) (m.values 1 3)
        (m.values 2 0) (m.values 2 2) (m.values 2 3)
        (m.values 3 0) (m.values 3 2) (m.values 3 3)
      + m.values 0 2 * det3 (m.values 1 0) (m.values 1 1) (m.values 1 3)
        (m.values 2 0) (m.values 2 1) (m.values 2 3)
        (m.values 3 0) (m.values 3 1) (m.values 3 3)
      - m.values 0 3 * det3 (m.values 1 0) (m.values 1 1) (m.values 1 2)
        (m.values 2 0) (m.values 2 1) (m.values 2 2)
        (m.values 3 0) (m.values 3 1) (m.values 3 2) := by
  have hs : ∀ c : ℕ, (m.submatrix 0 c).size = 3 := by
    intro c
    simp [Matrix.submatrix, h]
  have hd : ∀ c : ℕ, detAux 3 (m.submatrix 0 c) = (m.submatrix 0 c).determinant := by
    intro c
    rw [Matrix.determinant, hs c]
  rw [Matrix.determinant, h, detAux_four]
  simp only [Finset.sum_range_succ, Finset.sum_range_zero, hd,
    det_three_expand _ (hs 0), det_three_expand _ (hs 1),
    det_three_expand _ (hs 2), det_three_expand _ (hs 3),
    submatrix_values, Matrix.at, h, det3]
  norm_num
  ring

theorem det_size_zero (m : Matrix) (h : m.size = 0) : m.determinant = 0 := by
  rw [Matrix.determinant, h, detAux_zero]

theorem det_size_one (m : Matrix) (h : m.size = 1) : m.determinant = 0 := by
  rw [Matrix.determinant, h, detAux_one]
  simp [detAux_zero]

/-- Every cofactor of a 2x2 matrix is zero: its minors are determinants of
1x1 submatrices, and the recursive determinant of a 1x1 matrix is the
entry times the determinant of an empty submatrix, which is zero. -/
theorem cofactor_of_two_eq_zero (m : Matrix) (h : m.size = 2) (r c : ℕ) :
    m.cofactor r c = 0 := by
  have hs : (m.submatrix r c).size = 1 := by simp [Matrix.submatrix, h]
  rw [Matrix.cofactor, Matrix.minor, det_size_one _ hs]
  simp

theorem laplace3 (m : Matrix) (h : m.size = 3) (y x : ℕ) (hy : y < 3) (hx : x < 3) :
    ∑ i ∈ Finset.range 3, m.at y i * m.cofactor x i =
      if y = x then m.determinant else 0 := by
  have hs2 : ∀ r c : ℕ, (m.submatrix r c).size = 2 := by
    intro r c; simp [Matrix.submatrix, h]
  have hd2 : ∀ r c : ℕ, (m.submatrix r c).determinant =
      (m.submatrix r c).values 0 0 * (m.submatrix r c).values 1 1 -
      (m.submatrix r c).values 0 1 * (m.submatrix r c).values 1 0 :=
    fun r c => det_two_expand _ (hs2 r c)
  interval_cases y <;> interval_cases x <;>
    · simp only [Finset.sum_range_succ, Finset.sum_range_zero, Matrix.cofactor,
        Matrix.minor, Matrix.at, hd2, submatrix_values, h, det_three_expand m h]
      norm_num
      ring

theorem laplace4 (m : Matrix) (h : m.size = 4) (y x : ℕ) (hy : y < 4) (hx : x < 4) :
    ∑ i ∈ Finset.range 4, m.at y i * m.cofactor x i =
      if y = x then m.determinant else 0 := by
  have hs3 : ∀ r c : ℕ, (m.submatrix r c).size = 3 := by
    intro r c; simp [Matrix.submatrix, h]
  have hd3 : ∀ r c : ℕ, (m.submatrix r c).determinant =
      (m.submatrix r c).values 0 0 *
        ((m.submatrix r c).values 1 1 * (m.submatrix r c).values 2 2 -
         (m.submatrix r c).values 1 2 * (m.submatrix r c).values 2 1)
      - (m.submatrix r c).values 0 1 *
        ((m.submatrix r c).values 1 0 * (m.submatrix r c).values 2 2 -
         (m.submatrix r c).values 1 2 * (m.submatrix r c).values 2 0)
      + (m.submatrix r c).values 0 2 *
        ((m.submatrix r c).values 1 0 * (m.submatrix r c).values 2 1 -
         (m.submatrix r c).values 1 1 * (m.submatrix r c).values 2 0) :=
    fun r c => det_three_expand _ (hs3 r c)
  interval_cases y <;> interval_cases x <;>
    · simp only [Finset.sum_range_succ, Finset.sum_range_zero, Matrix.cofactor,
        Matrix.minor, Matrix.at, hd3, submatrix_values, h, det_four_expand m h, det3]
      norm_num
      ring

/-- Identity block of a given size inside the 4x4 backing array. -/
def idOfSize (s : ℕ) : Matrix :=
  ⟨s, fun y x => if y < s ∧ x < s then (if y = x then 1 else 0) else 0⟩

/-- The 2x2 identity as the source builds 2x2 matrices. -/
def id2 : Matrix := Matrix.from2 (fun y x => if y = x then 1 else 0)

theorem id2_det : id2.determinant = 1 := by
  rw [det_two_expand id2 rfl]
  norm_num [id2, Matrix.from2]

/-- C9 counterexample: the 2x2 identity has determinant 1, inverse
succeeds, but the product with the returned inverse is not the identity
within epsilon: all cofactors of a 2x2 matrix are zero in this code, so
its inverse is the zero block. -/
theorem C9_counterexample :
    id2.determinant ≠ 0 ∧
    ¬(∃ mi, id2.inverse = some mi ∧ matrixEq (id2.mul mi) (idOfSize 2)) := by
  have hdet : id2.determinant = 1 := id2_det
  refine ⟨by rw [hdet]; norm_num, ?_⟩
  rintro ⟨mi, hmi, heq⟩
  rw [Matrix.inverse, if_neg (by rw [hdet]; norm_num)] at hmi
  have hz := heq 0 (by norm_num) 0 (by norm_num)
  apply hz
  cases hmi
  have hsz : id2.size = 2 := rfl
  have hmul : (id2.mul
      { size := id2.size,
        values := fun y x =>
          if y < id2.size ∧ x < id2.size then id2.cofactor x y / id2.determinant
          else 0 }).values 0 0 = 0 := by
    rw [Matrix.mul]
    simp only [hsz, Matrix.at]
    norm_num [Finset.sum_range_succ, cofactor_of_two_eq_zero id2 rfl]
  rw [hmul]
  norm_num [idOfSize]

theorem mul_inverse_id (m : Matrix) (hwf : m.Wf) (hdet : m.determinant ≠ 0)
    (hs : m.size = 3 ∨ m.size = 4) :
    ∃ mi, m.inverse = some mi ∧ matrixEq (m.mul mi) (idOfSize m.size) := by
  refine ⟨_, by rw [Matrix.inverse, if_neg hdet], ?_⟩
  intro y _ x _
  have key : (m.mul
      { size := m.size,
        values := fun y x =>
          if y < m.size ∧ x < m.size then m.cofactor x y / m.determinant
          else 0 }).values y x = (idOfSize m.size).values y x := by
    simp only [Matrix.mul, idOfSize]
    by_cases hin : y < m.size ∧ x < m.size
    · rw [if_pos hin, if_pos hin]
      have hsum : ∑ i ∈ Finset.range m.size,
          m.at y i * (Matrix.mk m.size (fun y x =>
            if y < m.size ∧ x < m.size then m.cofactor x y / m.determinant
            else 0)).at i x =
          (∑ i ∈ Finset.range m.size, m.at y i * m.cofactor x i) / m.determinant := by
        rw [Finset.sum_div]
        refine Finset.sum_congr rfl (fun i hi => ?_)
        have hcond : i < m.size ∧ x < m.size := ⟨Finset.mem_range.mp hi, hin.2⟩
        simp only [Matrix.at]
        rw [if_pos hcond]
        ring
      rw [hsum]
      rcases hs with h3 | h4
      · rw [h3] at hin ⊢
        rw [laplace3 m h3 y x hin.1 hin.2]
        by_cases hyx : y = x
        · rw [if_pos hyx, if_pos hyx, div_self hdet]
        · rw [if_neg hyx, if_neg hyx, zero_div]
      · rw [h4] at hin ⊢
        rw [laplace4 m h4 y x hin.1 hin.2]
        by_cases hyx : y = x
        · rw [if_pos hyx, if_pos hyx, div_self hdet]
        · rw [if_neg hyx, if_neg hyx, zero_div]
    · rw [if_neg hin, if_neg hin, hwf.2 y x hin]
  rw [key]
  norm_num

/-- C9 amended: inverse fails exactly when the determinant is zero; for a
well-formed matrix of size 3 or 4 with nonzero determinant the product
with the returned inverse is the identity block within epsilon; for size
2 the inverse succeeds but all its block entries are zero (every cofactor
of a 2x2 matrix is zero under the recursive determinant), so the product
is not the identity. -/
theorem C9_amended (m : Matrix) (hwf : m.Wf) :
    (m.inverse = none ↔ m.determinant = 0) ∧
    (m.determinant ≠ 0 → m.size ≠ 2 →
      ∃ mi, m.inverse = some mi ∧ matrixEq (m.mul mi) (idOfSize m.size)) ∧
    (m.determinant ≠ 0 → m.size = 2 →
      ∃ mi, m.inverse = some mi ∧ ∀ y x : ℕ, mi.values y x = 0) := by
  refine ⟨?_, ?_, ?_⟩
  · constructor
    · intro h
      by_contra hd
      rw [Matrix.inverse, if_neg hd] at h
      exact Option.noConfusion h
    · intro h
      rw [Matrix.inverse, if_pos h]
  · intro hdet hs2
    have hs : m.size = 3 ∨ m.size = 4 := by
      have h4 := hwf.1
      interval_cases h : m.size
      · exact absurd (det_size_zero m h) hdet
      · exact absurd (det_size_one m h) hdet
      · exact absurd rfl hs2
      · exact Or.inl rfl
      · exact Or.inr rfl
    exact mul_inverse_id m hwf hdet hs
  · intro hdet hs2
    refine ⟨_, by rw [Matrix.inverse, if_neg hdet], ?_⟩
    intro y x
    by_cases hin : y < m.size ∧ x < m.size
    · simp only [if_pos hin, cofactor_of_two_eq_zero m hs2, zero_div]
    · simp only [if_neg hin]

theorem identity_wf : Matrix.identity.Wf := by
  constructor
  · norm_num [Matrix.identity, Matrix.from4]
  · intro y x h
    simp only [Matrix.identity, Matrix.from4] at h ⊢
    rw [if_neg h]

theorem identity_det : Matrix.identity.determinant = 1 := by
  rw [det_four_expand _ rfl]
  norm_num [Matrix.identity, Matrix.from4, det3]

theorem cofactor_identity (r c : ℕ) (hr : r < 4) (hc : c < 4) :
    Matrix.identity.cofactor r c = if r = c then 1 else 0 := by
  have hs : ∀ a b : ℕ, (Matrix.identity.submatrix a b).size = 3 := by
    intro a b
    simp [Matrix.submatrix, Matrix.identity, Matrix.from4]
  interval_cases r <;> interval_cases c <;>
    · rw [Matrix.cofactor, Matrix.minor, det_three_expand _ (hs _ _)]
      norm_num [submatrix_values, Matrix.identity, Matrix.from4]

theorem Matrix.ext2 (a b : Matrix) (h1 : a.size = b.size) (h2 : a.values = b.values) :
    a = b := by
  cases a
  cases b
  simp_all

theorem identity_inverse : Matrix.identity.inverse = some Matrix.identity := by
  rw [Matrix.inverse, if_neg (by rw [identity_det]; norm_num)]
  congr 1
  refine Matrix.ext2 _ _ rfl ?_
  funext y x
  show (if y < 4 ∧ x < 4 then
      Matrix.identity.cofactor x y / Matrix.identity.determinant else 0) =
    Matrix.identity.values y x
  rw [show ∀ a b : ℕ, Matrix.identity.values a b =
    if a < 4 ∧ b < 4 then (if a = b then 1 else 0) else 0 from fun a b => rfl]
  by_cases h : y < 4 ∧ x < 4
  · rw [if_pos h, if_pos h, cofactor_identity x y h.2 h.1, identity_det]
    by_cases hyx : y = x
    · subst hyx
      norm_num
    · rw [if_neg (fun hc => hyx hc.symm), if_neg hyx]
      norm_num
  · rw [if_neg h, if_neg h]

theorem identity_mulT (t : Tuple) : Matrix.identity.mulT t = t := by
  cases t with
  | mk x y z w =>
      simp only [Matrix.mulT, Matrix.at, Matrix.identity, Matrix.from4]
      norm_num

theorem identity_transpose : Matrix.identity.transpose = Matrix.identity := by
  refine Matrix.ext2 _ _ rfl ?_
  funext r c
  show (if r < 4 ∧ c < 4 then Matrix.identity.values c r else 0) =
    Matrix.identity.values r c
  have hv : ∀ a b : ℕ, Matrix.identity.values a b =
      if a < 4 ∧ b < 4 then (if a = b then 1 else 0) else 0 := fun a b => rfl
  by_cases h : r < 4 ∧ c < 4
  · rw [if_pos h, hv, hv, if_pos ⟨h.2, h.1⟩, if_pos h]
    by_cases hrc : c = r
    · subst hrc
      rfl
    · rw [if_neg hrc, if_neg (fun hc => hrc hc.symm)]
  · rw [if_neg h, hv, if_neg h]

/-! ## Concrete scene pieces used by witnesses -/

def defaultSphere : Object := ⟨.sphere, Matrix.identity, Material.default, 0⟩

def defaultPlane : Object := ⟨.plane, Matrix.identity, Material.default, 2⟩

def comps0 : ComputedIntersection :=
  ⟨defaultSphere, point 0 0 0, vector 0 0 1, vector 0 0 1, vector 0 0 1, 1,
   False, point 0 0 0, point 0 0 0, 1, 1⟩

/-- Witness for C3: a concrete prepare call on a plane intersection
delivers the walk's n1/n2. -/
theorem C3_witness : ∃ comps, Intersection.prepare (intersection 1 defaultPlane)
    (ray (point 0 1 0) (vector 0 (-1) 0)) [intersection 1 defaultPlane] = .ok comps ∧
    (comps.n1, comps.n2) =
      specWalk (intersection 1 defaultPlane) [intersection 1 defaultPlane] :=
  ⟨_, rfl, C3_prepare_refractive_walk _ _ _ _ rfl⟩

/-- Witness for C5: at the default (non-reflective) material the reflected
color is black. -/
theorem C5_witness :
    World.reflected_color ⟨[], []⟩ comps0 5 = .ok (color 0 0 0) :=
  (C5_secondary_colors ⟨[], []⟩ comps0 5).1 (Or.inl rfl)

/-- Witness for C6: one unit of fuel covers a zero budget. -/
theorem C6_witness :
    colorAtF 1 ⟨[], []⟩ (ray (point 0 0 0) (vector 0 0 1)) 0 =
      some (World.color_at ⟨[], []⟩ (ray (point 0 0 0) (vector 0 0 1)) 0) :=
  C6_recursion_depth_bounded ⟨[], []⟩ (ray (point 0 0 0) (vector 0 0 1)) 0 1
    (by norm_num)

/-- Witness for C7: an all-negative list has no hit. -/
theorem C7_witness :
    hit [intersection (-2) defaultSphere, intersection (-1) defaultSphere] = none := by
  refine (C7_hit_selection _).1 ?_
  intro i hi
  rcases List.mem_cons.mp hi with rfl | hi2
  · norm_num [intersection]
  · rcases List.mem_cons.mp hi2 with rfl | h3
    · norm_num [intersection]
    · simp at h3

/-- Witness for C9: the 4x4 identity is inverted and the product is the
identity block. -/
theorem C9_witness : ∃ mi, Matrix.identity.inverse = some mi ∧
    matrixEq (Matrix.identity.mul mi) (idOfSize Matrix.identity.size) :=
  (C9_amended Matrix.identity identity_wf).2.1
    (by rw [identity_det]; norm_num) (by decide)

/-- Witness for C10: the default material equals its copy with changed
reflective, transparency and refractive_index. -/
theorem C10_witness : materialEq Material.default
    { Material.default with reflective := 5, transparency := 7, refractive_index := 3 } :=
  (C10_material_eq_ignores_optics _ _
    (by norm_num [Material.default, EPSILON])
    (by norm_num [Material.default, EPSILON])
    (by norm_num [Material.default, EPSILON])
    (by norm_num [Material.default, EPSILON])
    (patternEq_refl _)).1

/-! ## Degenerate (non-invertible) placements -/

def zeroMatrix : Matrix := Matrix.from4 (fun _ _ => 0)

theorem zeroMatrix_det : zeroMatrix.determinant = 0 := by
  rw [det_four_expand _ rfl]
  norm_num [zeroMatrix, Matrix.from4, det3]

theorem zeroMatrix_inverse : zeroMatrix.inverse = none := by
  rw [Matrix.inverse, if_pos zeroMatrix_det]

def degenSphere : Object := ⟨.sphere, zeroMatrix, Material.default, 3⟩

def degenWorld : World := ⟨[degenSphere], []⟩

def degenCamera : Camera := Camera.new 11 11 1 (some zeroMatrix)

/-- C1 counterexample: with a shape whose placement has determinant 0 in
the world, World::intersect unwraps the shape's Err and panics instead of
returning it, and Camera::ray_for_pixel with a non-invertible camera
transform panics on its unwrap as well. -/
theorem C1_counterexample :
    World.intersect degenWorld (ray (point 0 0 (-5)) (vector 0 0 1)) = .panicked ∧
    Camera.ray_for_pixel degenCamera 0 0 = .panicked := by
  constructor
  · simp [World.intersect, intersectAll, degenWorld, degenSphere, Object.intersect,
      sphereIntersect, zeroMatrix_inverse, Outcome.unwrapResult, Outcome.bind]
  · simp [Camera.ray_for_pixel, degenCamera, Camera.new, unwrapInverse,
      zeroMatrix_inverse, Outcome.bind]

theorem object_intersect_err (o : Object) (r : Ray)
    (h : o.transform.determinant = 0) : o.intersect r = .err := by
  have hinv : o.transform.inverse = none := by rw [Matrix.inverse, if_pos h]
  cases hk : o.kind <;>
    simp [Object.intersect, hk, sphereIntersect, planeIntersect, cubeIntersect,
      cubeIntersectT, tryInverse, hinv, Outcome.bind]

theorem intersectAll_panics (r : Ray) :
    ∀ (objs : List Object) (o : Object), o ∈ objs →
      o.transform.determinant = 0 → intersectAll r objs = .panicked := by
  intro objs
  induction objs with
  | nil => intro o h; simp at h
  | cons o0 rest ih =>
      intro o hmem hdet
      rcases List.mem_cons.mp hmem with rfl | hmem2
      · rw [intersectAll, object_intersect_err o r hdet]
        rfl
      · rw [intersectAll]
        cases h0 : o0.intersect r with
        | ok xs =>
            simp only [Outcome.unwrapResult, Outcome.bind]
            rw [ih o hmem2 hdet]
        | err => rfl
        | panicked => rfl

/-- C1 amended: a shape's intersect does return an explicit Err result on
a non-invertible placement, but World::intersect unwraps the per-shape
results and panics on such a shape, and Camera::ray_for_pixel panics when
the camera transform is not invertible. -/
theorem C1_amended :
    (∀ (o : Object) (r : Ray), o.transform.determinant = 0 →
      o.intersect r = .err) ∧
    (∀ (w : World) (r : Ray) (o : Object), o ∈ w.objects →
      o.transform.determinant = 0 → w.intersect r = .panicked) ∧
    (∀ (c : Camera) (px py : ℝ), c.transform.determinant = 0 →
      c.ray_for_pixel px py = .panicked) := by
  refine ⟨object_intersect_err, ?_, ?_⟩
  · intro w r o hmem hdet
    rw [World.intersect, intersectAll_panics r w.objects o hmem hdet]
    rfl
  · intro c px py hdet
    have hinv : c.transform.inverse = none := by rw [Matrix.inverse, if_pos hdet]
    simp [Camera.ray_for_pixel, unwrapInverse, hinv, Outcome.bind]

/-- Witness for C1 amended: the degenerate sphere produces the Err result
at shape level, the panic at world level, and the degenerate camera the
panic at ray building. -/
theorem C1_witness :
    degenSphere.intersect (ray (point 0 0 (-5)) (vector 0 0 1)) = .err ∧
    World.intersect degenWorld (ray (point 0 0 (-5)) (vector 0 0 1)) = .panicked ∧
    Camera.ray_for_pixel degenCamera 0 0 = .panicked :=
  ⟨C1_amended.1 degenSphere _ zeroMatrix_det,
   C1_amended.2.1 degenWorld _ degenSphere (by simp [degenWorld]) zeroMatrix_det,
   C1_amended.2.2 degenCamera 0 0 zeroMatrix_det⟩

/-! ## Normal transformation claim -/

/-- Formula stated by the spec for world-space normals: transform the
object-space normal by the inverse-transpose of the placement matrix,
force w to 0, then normalize. -/
def specNormalFromLocal (placement : Matrix) (objectNormal : Tuple) : Option Tuple :=
  placement.inverse.map (fun inv =>
    let world_normal_t := inv.transpose.mulT objectNormal
    (Tuple.mk world_normal_t.x world_normal_t.y world_normal_t.z 0).normalize)

/-- Rotation by 90 degrees about the x axis, written with its exact
entries. -/
def RX90 : Matrix := Matrix.from4 (fun y x =>
  if y = 0 ∧ x = 0 then 1
  else if y = 1 ∧ x = 2 then -1
  else if y = 2 ∧ x = 1 then 1
  else if y = 3 ∧ x = 3 then 1
  else 0)

theorem RX90_det : RX90.determinant = 1 := by
  rw [det_four_expand _ rfl]
  norm_num [RX90, Matrix.from4, det3]

theorem RX90_sub_size : ∀ r c : ℕ, (RX90.submatrix r c).size = 3 := by
  intro r c
  simp [Matrix.submatrix, RX90, Matrix.from4]

theorem RX90_cof01 : RX90.cofactor 0 1 = 0 := by
  rw [Matrix.cofactor, Matrix.minor, det_three_expand _ (RX90_sub_size 0 1)]
  norm_num [submatrix_values, RX90, Matrix.from4]

theorem RX90_cof11 : RX90.cofactor 1 1 = 0 := by
  rw [Matrix.cofactor, Matrix.minor, det_three_expand _ (RX90_sub_size 1 1)]
  norm_num [submatrix_values, RX90, Matrix.from4]

theorem RX90_cof21 : RX90.cofactor 2 1 = 1 := by
  rw [Matrix.cofactor, Matrix.minor, det_three_expand _ (RX90_sub_size 2 1)]
  norm_num [submatrix_values, RX90, Matrix.from4]

theorem RX90_cof31 : RX90.cofactor 3 1 = 0 := by
  rw [Matrix.cofactor, Matrix.minor, det_three_expand _ (RX90_sub_size 3 1)]
  norm_num [submatrix_values, RX90, Matrix.from4]

/-- C2: for a plane whose placement is a 90 degree x-rotation (an
invertible transform used as a wall by the repository's own scenes),
Plane::normal_at still returns the untransformed local normal (0,1,0),
while the normal claimed by the spec (inverse-transpose, w forced to 0,
normalized) is (0,0,1); the two differ beyond epsilon.  This evaluates
the code at the failing input of the claim. -/
theorem C2_plane_normal_ignores_transform :
    (Object.mk .plane RX90 Material.default 4).normal_at (point 0 0 0) =
      .ok (vector 0 1 0) ∧
    specNormalFromLocal RX90 (vector 0 1 0) = some (vector 0 0 1) ∧
    ¬ tupleEq (vector 0 1 0) (vector 0 0 1) := by
  refine ⟨rfl, ?_, ?_⟩
  · rw [specNormalFromLocal, Matrix.inverse, if_neg (by rw [RX90_det]; norm_num)]
    simp only [Option.map_some']
    congr 1
    simp only [Matrix.transpose, Matrix.mulT, Matrix.at, vector, tuple]
    norm_num [RX90_cof01, RX90_cof11, RX90_cof21, RX90_cof31, RX90_det,
      Tuple.normalize, Tuple.magnitude, show RX90.size = 4 from rfl,
      Real.sqrt_one]
  · intro h
    have h2 := h.2.1
    norm_num [vector, tuple, EPSILON] at h2

/-! ## Schlick reflectance -/

/-- The glass_sphere() helper: default sphere with transparency 1 and
refractive index 1.5. -/
def glassSphere : Object :=
  ⟨.sphere, Matrix.identity,
   { Material.default with transparency := 1, refractive_index := 3 / 2 }, 5⟩

theorem glass_normal :
    Object.normal_at glassSphere
      ((ray (point 0 0 0) (vector 0 1 0)).position (-1)) =
      .ok (Tuple.mk 0 (-1) 0 0) := by
  show sphereNormalAt glassSphere _ = _
  simp only [sphereNormalAt, glassSphere]
  rw [identity_inverse]
  simp only [unwrapInverse, Outcome.bind]
  rw [identity_mulT, identity_transpose, identity_mulT]
  simp only [Ray.position, ray, Tuple.add, Tuple.mul, Tuple.sub, point, vector, tuple,
    Tuple.normalize, Tuple.magnitude]
  norm_num [Real.sqrt_one]

/-- C4: schlick returns exactly 1 on total internal reflection (n1 > n2
and sin2_t > 1), otherwise r0 + (1-r0)(1-cos)^5 with r0 = ((n1-n2)/(n1+n2))^2,
where cos is eye.normal replaced by cos_t = sqrt(1-sin2_t) when n1 > n2;
and at the perpendicular viewing angle on a glass sphere (index 1.5) the
prepared intersection's reflectance is 0.04 within epsilon. -/
theorem C4_schlick (c : ComputedIntersection) :
    (c.n1 > c.n2 →
      (c.n1 / c.n2) ^ 2 * (1 - (c.eye_v.dot c.normal_v) ^ 2) > 1 →
      c.schlick = 1) ∧
    (c.n1 > c.n2 →
      ¬((c.n1 / c.n2) ^ 2 * (1 - (c.eye_v.dot c.normal_v) ^ 2) > 1) →
      c.schlick = ((c.n1 - c.n2) / (c.n1 + c.n2)) ^ 2 +
        (1 - ((c.n1 - c.n2) / (c.n1 + c.n2)) ^ 2) *
          (1 - Real.sqrt (1 - (c.n1 / c.n2) ^ 2 *
            (1 - (c.eye_v.dot c.normal_v) ^ 2))) ^ 5) ∧
    (¬(c.n1 > c.n2) →
      c.schlick = ((c.n1 - c.n2) / (c.n1 + c.n2)) ^ 2 +
        (1 - ((c.n1 - c.n2) / (c.n1 + c.n2)) ^ 2) *
          (1 - c.eye_v.dot c.normal_v) ^ 5) ∧
    (∃ comps,
      Intersection.prepare (intersection (-1) glassSphere)
        (ray (point 0 0 0) (vector 0 1 0))
        [intersection (-1) glassSphere, intersection 1 glassSphere] = .ok comps ∧
      |comps.schlick - 1 / 25| < EPSILON) := by
  refine ⟨?_, ?_, ?_, ?_⟩
  · intro h1 h2
    rw [ComputedIntersection.schlick, if_pos h1, if_pos h2]
  · intro h1 h2
    rw [ComputedIntersection.schlick, if_pos h1, if_neg h2, schlickTail]
  · intro h1
    rw [ComputedIntersection.schlick, if_neg h1, schlickTail]
  · simp only [Intersection.prepare, intersection]
    rw [glass_normal]
    simp only [Outcome.bind]
    refine ⟨_, rfl, ?_⟩
    have hdot : (Tuple.mk 0 (-1) 0 0).dot (ray (point 0 0 0) (vector 0 1 0)).direction.neg
        = 1 := by
      simp [Tuple.dot, Tuple.neg, ray, vector, tuple]
    have hwalk : n1n2Walk ⟨-1, glassSphere⟩
        [⟨-1, glassSphere⟩, ⟨1, glassSphere⟩] = (1, 3 / 2) := by
      have heq1 : intersectionEq ⟨-1, glassSphere⟩ ⟨-1, glassSphere⟩ :=
        ⟨by norm_num [EPSILON], materialEq_refl _⟩
      have hneq : ¬intersectionEq ⟨1, glassSphere⟩ ⟨-1, glassSphere⟩ := by
        intro h
        have := h.1
        norm_num [EPSILON] at this
      have hcontains : containsObj glassSphere [glassSphere] := Or.inl rfl
      simp only [n1n2Walk, List.foldl_cons, List.foldl_nil, n1n2Step]
      rw [if_pos heq1, if_neg (show ¬containsObj glassSphere [] from id),
        if_pos heq1]
      simp only [List.nil_append]
      rw [if_neg hneq, if_pos hcontains, if_neg hneq]
      simp [removeObj, topRefractive, objEq, glassSphere]
    have hdot2 : (ray (point 0 0 0) (vector 0 1 0)).direction.neg.dot
        (Tuple.mk 0 (-1) 0 0) = 1 := by
      simp [Tuple.dot, Tuple.neg, ray, vector, tuple]
    simp only [hwalk]
    rw [ComputedIntersection.schlick]
    rw [if_neg (show ¬((1 : ℝ) > 3 / 2) by norm_num)]
    rw [schlickTail]
    norm_num [EPSILON, hdot, hdot2]

/-! ## Cube slab claim -/

def defaultCube : Object := ⟨.cube, Matrix.identity, Material.default, 6⟩

/-- Maximum of the per-axis slab minima of the locally transformed ray,
as the claim words it. -/
def slabTMin (r2 : Ray) : RVal :=
  maxR (check_axis r2.origin.x r2.direction.x).1
    (maxR (check_axis r2.origin.y r2.direction.y).1
      (check_axis r2.origin.z r2.direction.z).1)

/-- Minimum of the per-axis slab maxima of the locally transformed ray. -/
def slabTMax (r2 : Ray) : RVal :=
  minR (check_axis r2.origin.x r2.direction.x).2
    (minR (check_axis r2.origin.y r2.direction.y).2
      (check_axis r2.origin.z r2.direction.z).2)

theorem ray_transform_identity (r : Ray) : r.transform Matrix.identity = r := by
  cases r
  simp [Ray.transform, identity_mulT]

theorem gt_fin_fin (a b : ℝ) : RVal.gt (.fin a) (.fin b) ↔ a > b := Iff.rfl

theorem lt_fin_fin (a b : ℝ) : RVal.lt (.fin a) (.fin b) ↔ a < b := Iff.rfl

theorem maxR_fin_fin (a b : ℝ) :
    maxR (.fin a) (.fin b) = if a > b then .fin a else .fin b := rfl

theorem minR_fin_fin (a b : ℝ) :
    minR (.fin a) (.fin b) = if a < b then .fin a else .fin b := rfl

theorem maxR_fin_ninf (a : ℝ) : maxR (.fin a) .ninf = .fin a := by
  simp [maxR, RVal.gt]

theorem maxR_ninf_ninf : maxR .ninf .ninf = .ninf := by
  simp [maxR, RVal.gt]

theorem minR_fin_pinf (a : ℝ) : minR (.fin a) .pinf = .fin a := by
  simp [minR, RVal.lt]

theorem minR_pinf_pinf : minR .pinf .pinf = .pinf := by
  simp [minR, RVal.lt]

theorem check_axis_deg_inside : check_axis (1 / 2 : ℝ) 0 = (.ninf, .pinf) := by
  rw [check_axis]
  norm_num [EPSILON, mulInf, RVal.gt]

theorem check_axis_deg_center : check_axis (0 : ℝ) 0 = (.ninf, .pinf) := by
  rw [check_axis]
  norm_num [EPSILON, mulInf, RVal.gt]

theorem check_axis_hit_x : check_axis (5 : ℝ) (-1) = (.fin 4, .fin 6) := by
  rw [check_axis]
  norm_num [EPSILON, RVal.gt]

theorem check_axis_miss_x :
    check_axis (-2 : ℝ) (2673 / 10000) = (.fin (10000 / 2673), .fin (30000 / 2673)) := by
  rw [check_axis, if_pos (show |(2673 / 10000 : ℝ)| ≥ EPSILON by
    rw [abs_of_pos (by norm_num : (0 : ℝ) < 2673 / 10000)]; norm_num [EPSILON])]
  norm_num [gt_fin_fin]

theorem check_axis_miss_y :
    check_axis (0 : ℝ) (5345 / 10000) =
      (.fin (-(10000 / 5345)), .fin (10000 / 5345)) := by
  rw [check_axis, if_pos (show |(5345 / 10000 : ℝ)| ≥ EPSILON by
    rw [abs_of_pos (by norm_num : (0 : ℝ) < 5345 / 10000)]; norm_num [EPSILON])]
  norm_num [gt_fin_fin]

theorem check_axis_miss_z :
    check_axis (0 : ℝ) (8018 / 10000) =
      (.fin (-(10000 / 8018)), .fin (10000 / 8018)) := by
  rw [check_axis, if_pos (show |(8018 / 10000 : ℝ)| ≥ EPSILON by
    rw [abs_of_pos (by norm_num : (0 : ℝ) < 8018 / 10000)]; norm_num [EPSILON])]
  norm_num [gt_fin_fin]

/-- C8: with an invertible placement, Cube::intersect applies check_axis
per axis to the locally transformed ray, takes t_min as the maximum of
the per-axis minima and t_max as the minimum of the per-axis maxima,
returns no intersection exactly when t_min > t_max and both values
otherwise; the default cube is hit by the ray from (5,0.5,0) towards
(-1,0,0) at t = 4 and t = 6, and missed by the ray from (-2,0,0) with
direction (0.2673,0.5345,0.8018). -/
theorem C8_cube_slab (o : Object) (r : Ray) (inv : Matrix)
    (hinv : o.transform.inverse = some inv) :
    (cubeIntersectT o r =
      .ok (if RVal.gt (slabTMin (r.transform inv)) (slabTMax (r.transform inv))
        then []
        else [slabTMin (r.transform inv), slabTMax (r.transform inv)])) ∧
    (cubeIntersectT o r = .ok [] ↔
      RVal.gt (slabTMin (r.transform inv)) (slabTMax (r.transform inv))) ∧
    (cubeIntersect defaultCube (ray (point 5 (1 / 2) 0) (vector (-1) 0 0)) =
      .ok [intersection 4 defaultCube, intersection 6 defaultCube]) ∧
    (cubeIntersectT defaultCube
      (ray (point (-2) 0 0) (vector (2673 / 10000) (5345 / 10000) (8018 / 10000))) =
      .ok []) := by
  have hmain : cubeIntersectT o r =
      .ok (if RVal.gt (slabTMin (r.transform inv)) (slabTMax (r.transform inv))
        then []
        else [slabTMin (r.transform inv), slabTMax (r.transform inv)]) := by
    rw [cubeIntersectT, hinv]
    simp only [tryInverse, Outcome.bind, slabTMin, slabTMax]
    by_cases h : RVal.gt
        (maxR (check_axis (r.transform inv).origin.x (r.transform inv).direction.x).1
          (maxR (check_axis (r.transform inv).origin.y (r.transform inv).direction.y).1
            (check_axis (r.transform inv).origin.z (r.transform inv).direction.z).1))
        (minR (check_axis (r.transform inv).origin.x (r.transform inv).direction.x).2
          (minR (check_axis (r.transform inv).origin.y (r.transform inv).direction.y).2
            (check_axis (r.transform inv).origin.z (r.transform inv).direction.z).2))
    · rw [if_pos h, if_pos h]
    · rw [if_neg h, if_neg h]
  refine ⟨hmain, ?_, ?_, ?_⟩
  · rw [hmain]
    by_cases h : RVal.gt (slabTMin (r.transform inv)) (slabTMax (r.transform inv))
    · simp [h]
    · simp [h]
  · rw [cubeIntersect, cubeIntersectT,
      show defaultCube.transform = Matrix.identity from rfl, identity_inverse]
    simp only [tryInverse, Outcome.bind, ray_transform_identity,
      show (ray (point 5 (1 / 2) 0) (vector (-1) 0 0)).origin.x = (5 : ℝ) from rfl,
      show (ray (point 5 (1 / 2) 0) (vector (-1) 0 0)).origin.y = (1 / 2 : ℝ) from rfl,
      show (ray (point 5 (1 / 2) 0) (vector (-1) 0 0)).origin.z = (0 : ℝ) from rfl,
      show (ray (point 5 (1 / 2) 0) (vector (-1) 0 0)).direction.x = (-1 : ℝ) from rfl,
      show (ray (point 5 (1 / 2) 0) (vector (-1) 0 0)).direction.y = (0 : ℝ) from rfl,
      show (ray (point 5 (1 / 2) 0) (vector (-1) 0 0)).direction.z = (0 : ℝ) from rfl,
      check_axis_hit_x, check_axis_deg_inside, check_axis_deg_center,
      maxR_ninf_ninf, maxR_fin_ninf, minR_pinf_pinf, minR_fin_pinf]
    rw [if_neg (show ¬RVal.gt (.fin 4) (.fin 6) by
      rw [gt_fin_fin]; norm_num)]
    simp [RVal.toReal, intersection]
  · rw [cubeIntersectT,
      show defaultCube.transform = Matrix.identity from rfl, identity_inverse]
    simp only [tryInverse, Outcome.bind, ray_transform_identity,
      show (ray (point (-2) 0 0) (vector (2673 / 10000) (5345 / 10000)
        (8018 / 10000))).origin.x = (-2 : ℝ) from rfl,
      show (ray (point (-2) 0 0) (vector (2673 / 10000) (5345 / 10000)
        (8018 / 10000))).origin.y = (0 : ℝ) from rfl,
      show (ray (point (-2) 0 0) (vector (2673 / 10000) (5345 / 10000)
        (8018 / 10000))).origin.z = (0 : ℝ) from rfl,
      show (ray (point (-2) 0 0) (vector (2673 / 10000) (5345 / 10000)
        (8018 / 10000))).direction.x = (2673 / 10000 : ℝ) from rfl,
      show (ray (point (-2) 0 0) (vector (2673 / 10000) (5345 / 10000)
        (8018 / 10000))).direction.y = (5345 / 10000 : ℝ) from rfl,
      show (ray (point (-2) 0 0) (vector (2673 / 10000) (5345 / 10000)
        (8018 / 10000))).direction.z = (8018 / 10000 : ℝ) from rfl,
      check_axis_miss_x, check_axis_miss_y, check_axis_miss_z]
    norm_num [maxR_fin_fin, minR_fin_fin, gt_fin_fin, lt_fin_fin]

/-- Total-internal-reflection configuration: glass on the inside (n1 = 1.5,
n2 = 1) with eye perpendicular to the normal. -/
def tirComps : ComputedIntersection :=
  ⟨glassSphere, point 0 0 0, vector 1 0 0, vector 0 1 0, vector 0 0 1, 1,
   False, point 0 0 0, point 0 0 0, 3 / 2, 1⟩

/-- Witness for C4: total internal reflection yields reflectance exactly 1. -/
theorem C4_witness : tirComps.schlick = 1 :=
  (C4_schlick tirComps).1 (by norm_num [tirComps])
    (by norm_num [tirComps, Tuple.dot, vector, tuple])

/-- Witness for C8: the default cube and the hitting ray of the claim. -/
theorem C8_witness :
    cubeIntersect defaultCube (ray (point 5 (1 / 2) 0) (vector (-1) 0 0)) =
      .ok [intersection 4 defaultCube, intersection 6 defaultCube] :=
  (C8_cube_slab defaultCube (ray (point 5 (1 / 2) 0) (vector (-1) 0 0))
    Matrix.identity identity_inverse).2.2.1

end

end RT
